import Mathlib

/-!
Verification development for the zoopfinance bank-statement import pipeline
(`src/app/page.tsx`).  The TypeScript functions `parseCSVLine`,
`parseCSVLocally`, `convertToUSD`, `parseDate`, `detectCategory`,
`cleanDescription`, `handleApplyRulesToExisting` and the `processFiles`
batch step are shallowly embedded below.  JavaScript numbers are modelled
as rationals (`ℚ`); the inputs relevant here are ASCII, so the embedded
case-mapping functions implement the ASCII fragment of
`toLowerCase`/`toUpperCase`.  Nondeterministic environment facilities
(`new Date()` for "today", the engine-defined `new Date(string)` parser,
`crypto.randomUUID`) are passed in as explicit parameters or omitted when
no claim depends on them (the `id` field).
-/

namespace Zoop

/-! ### JavaScript string primitives (ASCII fragment) -/

/-- ASCII lower-casing of a single character, as `String.toLowerCase`
acts on the ASCII range. -/
def asciiToLower (c : Char) : Char :=
  if 'A' ≤ c ∧ c ≤ 'Z' then Char.ofNat (c.toNat + 32) else c

/-- ASCII upper-casing of a single character. -/
def asciiToUpper (c : Char) : Char :=
  if 'a' ≤ c ∧ c ≤ 'z' then Char.ofNat (c.toNat - 32) else c

def jsToLower (s : String) : String := String.mk (s.data.map asciiToLower)

def jsToUpper (s : String) : String := String.mk (s.data.map asciiToUpper)

/-- JavaScript whitespace test restricted to the ASCII characters that
occur in CSV exports. -/
def jsIsSpace (c : Char) : Bool :=
  c = ' ' ∨ c = '\t' ∨ c = '\n' ∨ c = '\r'

/-- The source form `String.prototype.trim`. -/
def jsTrim (s : String) : String :=
  String.mk (((s.data.dropWhile jsIsSpace).reverse.dropWhile jsIsSpace).reverse)

/-- The source form `String.prototype.startsWith`. -/
def jsStartsWith (s pre : String) : Bool := pre.data.isPrefixOf s.data

/-- Substring occurrence on character lists (`String.prototype.includes`). -/
def hasSub (t : List Char) : List Char → Bool
  | [] => t.isEmpty
  | c :: rest => t.isPrefixOf (c :: rest) || hasSub t rest

/-- The source form `s.includes(t)`. -/
def jsIncludes (s t : String) : Bool := hasSub t.data s.data

/-- Split a character list at every separator character, keeping empty
segments, as `String.prototype.split` does. -/
def splitChars (p : Char → Bool) : List Char → List (List Char)
  | [] => [[]]
  | c :: rest =>
    let r := splitChars p rest
    if p c then [] :: r
    else
      match r with
      | h :: t => (c :: h) :: t
      | [] => [[c]]

/-- The source form `s.split(sep)` for a single separator character. -/
def jsSplitChar (sep : Char) (s : String) : List String :=
  (splitChars (fun c => c = sep) s.data).map String.mk

/-- The source form `String(n).padStart(2, "0")`. -/
def padStart2 (s : String) : String :=
  if s.length ≥ 2 then s else String.mk (List.replicate (2 - s.length) '0') ++ s

/-! ### JavaScript numeric primitives -/

def digitsToNat (ds : List Char) : Nat :=
  ds.foldl (fun n c => n * 10 + (c.toNat - '0'.toNat)) 0

/-- The source form `parseFloat` on a string whose characters are already restricted to
digits, `.` and `-` (the import pipeline always strips the amount string
first): optional leading minus sign, integer digits, optional decimal
point with fraction digits; the valid prefix is taken and at least one
digit is required, otherwise NaN (`none`). -/
def jsParseFloatPos (cs : List Char) : Option ℚ :=
  let intDigits := cs.takeWhile Char.isDigit
  let rest := cs.dropWhile Char.isDigit
  match rest with
  | '.' :: rest2 =>
    let fracDigits := rest2.takeWhile Char.isDigit
    if intDigits = [] ∧ fracDigits = [] then none
    else some ((digitsToNat intDigits : ℚ) +
      (digitsToNat fracDigits : ℚ) / ((10 : ℚ) ^ fracDigits.length))
  | _ => if intDigits = [] then none else some (digitsToNat intDigits)

def jsParseFloat (s : String) : Option ℚ :=
  match s.data with
  | '-' :: rest => (jsParseFloatPos rest).map Neg.neg
  | cs => jsParseFloatPos cs

/-- The source form `str.replace(/[^0-9.-]/g, "")`. -/
def stripAmount (s : String) : String :=
  String.mk (s.data.filter fun c => c.isDigit || c = '.' || c = '-')

/-- The source form `parseFloat(str.replace(/[^0-9.-]/g, "")) || 0`: NaN collapses to 0. -/
def parseAmount (s : String) : ℚ := (jsParseFloat (stripAmount s)).getD 0

/-- The source form `parseInt(p)` (radix 10): optional sign then a leading digit run;
NaN (`none`) when no digit is found. -/
def jsParseInt (s : String) : Option Int :=
  match (jsTrim s).data with
  | '-' :: rest =>
    let ds := rest.takeWhile Char.isDigit
    if ds = [] then none else some (-(digitsToNat ds : Int))
  | '+' :: rest =>
    let ds := rest.takeWhile Char.isDigit
    if ds = [] then none else some (digitsToNat ds)
  | cs =>
    let ds := cs.takeWhile Char.isDigit
    if ds = [] then none else some (digitsToNat ds)

/-- The source form `NaN > k` is false; `some v > k` compares numerically. -/
def jsGT (o : Option Int) (k : Int) : Bool :=
  match o with
  | some v => v > k
  | none => false

/-- The source form `String(x)` for a possibly-NaN integer. -/
def jsIntToString (o : Option Int) : String :=
  match o with
  | some v => toString v
  | none => "NaN"

/-! ### JavaScript array/object access idioms -/

/-- The source form `values[i]` with a JS array index that may be `-1`: out-of-range and
negative indices yield `undefined` (`none`). -/
def jsGet (l : List String) (i : Int) : Option String :=
  if i < 0 then none else l.get? i.toNat

/-- The source form `x || d` on a possibly-undefined string: `undefined` and `""` are
falsy. -/
def jsOr (o : Option String) (d : String) : String :=
  match o with
  | some s => if s = "" then d else s
  | none => d

/-- The source form `x || undefined` on a string. -/
def jsUndefIfEmpty (s : String) : Option String :=
  if s = "" then none else some s

/-- The source form `parseFloat(...) || undefined` on an already-collapsed amount
(NaN was merged into 0 by `parseAmount`): 0 is falsy. -/
def jsOptNum (q : ℚ) : Option ℚ :=
  if q = 0 then none else some q

/-- The source form `array.indexOf(x)`: index of the first occurrence or `-1`. -/
def jsIndexOf (x : String) (l : List String) : Int :=
  match l.findIdx? (fun h => h = x) with
  | some i => (i : Int)
  | none => -1

/-- The source form `array.findIndex(p)`: index of the first match or `-1`. -/
def jsFindIndex (p : String → Bool) (l : List String) : Int :=
  match l.findIdx? p with
  | some i => (i : Int)
  | none => -1

/-! ### Currency conversion (`convertToUSD`, page.tsx lines 122-133) -/

/-- Rate tables are association lists keyed by currency code; `rates[c]`
is the first binding (JS object keys are unique). -/
abbrev RateTable := List (String × ℚ)

/-- The source form `convertToUSD(amount, fromCurrency, rates)`.  The source guards with
`if (!rate)`, so a missing entry AND a zero entry both leave the amount
unchanged (ℚ has no NaN, so those are the only falsy cases here). -/
def convertToUSD (amount : ℚ) (fromCurrency : String) (rates : RateTable) : ℚ :=
  if fromCurrency = "USD" ∨ fromCurrency = "" then amount
  else
    match List.lookup fromCurrency rates with
    | none => amount
    | some rate => if rate = 0 then amount else amount / rate

example : convertToUSD 10 "EUR" [("EUR", 2)] = 5 := by
  norm_num +decide [convertToUSD, List.lookup]
example : convertToUSD 7 "XYZ" [("EUR", 2)] = 7 := by decide
example : parseAmount "abc" = 0 := by decide
example : parseAmount "-2100" = -2100 := by decide

/-! ### Keyword categorizer (`categoryRules` / `detectCategory`,
page.tsx lines 3655-3696).  Each regex of the fixed table is translated
into an executable matcher: alternations of literal substrings become
substring tests, an unescaped `.` becomes a single-character wildcard,
`\b` becomes an explicit word-boundary check, and `^...$` alternations
become full-string comparisons.  All patterns carry the `i` flag and the
search text is lower-cased first, so the literals below are the
lower-case forms from the source. -/

/-- Pattern atom list: `some c` is a literal character, `none` is the
regex wildcard `.` (matches any single character). -/
def patPrefix : List (Option Char) → List Char → Bool
  | [], _ => true
  | _ :: _, [] => false
  | oc :: ps, c :: cs =>
    (match oc with
     | some pc => pc = c
     | none => true) && patPrefix ps cs

def patSearch (pat : List (Option Char)) : List Char → Bool
  | [] => patPrefix pat []
  | c :: rest => patPrefix pat (c :: rest) || patSearch pat rest

/-- A fully literal pattern. -/
def litPat (s : String) : List (Option Char) := s.data.map some

/-- A pattern in which the character `.` is the regex wildcard. -/
def dotPat (s : String) : List (Option Char) :=
  s.data.map fun c => if c = '.' then none else some c

def containsLit (needle haystack : String) : Bool :=
  patSearch (litPat needle) haystack.data

def anyLit (needles : List String) (haystack : String) : Bool :=
  needles.any fun n => containsLit n haystack

/-- The source form `\w` of JavaScript regexes (ASCII letters, digits, underscore). -/
def isWordChar (c : Char) : Bool := c.isAlphanum || c = '_'

/-- Occurrence of `needle` delimited by word boundaries (`\b...\b`). -/
def wordBoundedAux (target : List Char) (prev : Option Char) : List Char → Bool
  | [] => false
  | c :: rest =>
    ((match prev with
      | none => true
      | some pc => !isWordChar pc) &&
     target.isPrefixOf (c :: rest) &&
     (match (c :: rest).drop target.length with
      | [] => true
      | a :: _ => !isWordChar a))
    || wordBoundedAux target (some c) rest

def wordBounded (needle haystack : String) : Bool :=
  wordBoundedAux needle.data none haystack.data

/-- The fixed ordered regex-rule table, first match wins. -/
def categoryRules : List ((String → Bool) × String) :=
  [ (anyLit ["facebook", "meta ads", "meta_ads", "fb ads"], "Ads"),
    (anyLit ["google ads", "googleads", "dl*google", "dl *google"], "Ads"),
    (anyLit ["tiktok", "snapchat", "pinterest ads", "twitter ads", "linkedin ads"], "Ads"),
    (anyLit ["adspower"], "Ads"),
    (anyLit ["shopify"], "Fees"),
    (fun s => containsLit "stripe fee" s || patSearch (dotPat "stripe.com") s.data, "Fees"),
    (anyLit ["paypal fee"], "Fees"),
    (anyLit ["notion", "slack", "zoom", "github", "vercel", "aws", "google cloud",
             "heroku", "digitalocean"], "Software"),
    (anyLit ["openai", "anthropic", "zapier", "airtable", "figma", "canva", "adobe",
             "microsoft", "dropbox", "1password"], "Software"),
    (anyLit ["stape", "tracking", "pixel", "analytics"], "Software"),
    (anyLit ["pagouai", "pagou ai"], "Software"),
    (anyLit ["hostinger", "namecheap", "godaddy", "cloudflare"], "Software"),
    (anyLit ["payroll", "salary", "gusto", "deel", "remote.com", "wise transfer",
             "contractor", "employee"], "Payroll"),
    (anyLit ["fedex", "ups", "usps", "dhl", "shipstation", "shippo", "easypost",
             "fulfillment", "shipping", "postage"], "Shipping"),
    (fun s => wordBounded "fee" s ||
       anyLit ["charge", "interest", "penalty", "overdraft", "wire fee",
               "monthly service"] s, "Fees"),
    (fun s => ["business savings", "business checking", "savings account",
               "checking account"].any (fun c => s == c), "Transfer"),
    (fun s => ["para main", "de main", "from main", "to main"].any (fun c => s == c),
      "Transfer"),
    (anyLit ["refund", "chargeback", "dispute", "reversal", "return"], "Refunds"),
    (anyLit ["chaveiro", "office", "supplies", "equipment"], "Operations") ]

/-- The source form `detectCategory(description, payee)`. -/
def detectCategory (description : String) (payee : String := "") : String :=
  let textToCheck := jsToLower (payee ++ " " ++ description)
  match categoryRules.find? (fun r => r.1 textToCheck) with
  | some r => r.2
  | none => "Other"

example : detectCategory "FACEBOOK ADS PAYMENT" "Facebook" = "Ads" := by decide
example : detectCategory "some coffee" "" = "Other" := by decide

/-! ### Description normalizer (`cleanDescription`, page.tsx
lines 3698-3715) -/

/-- The source form `text.toLowerCase().replace(/\b\w/g, c => c.toUpperCase())`:
upper-case every word character that follows a word boundary. -/
def titleCaseAux (prev : Option Char) : List Char → List Char
  | [] => []
  | c :: rest =>
    (if isWordChar c &&
        (match prev with
         | none => true
         | some pc => !isWordChar pc)
     then asciiToUpper c else c) :: titleCaseAux (some c) rest

def titleCase (s : String) : String :=
  String.mk (titleCaseAux none (jsToLower s).data)

/-- The boilerplate prefixes of
`/^(payment to|payment from|direct debit|card payment|pos|purchase)\s*&#47;i`,
in the alternation order of the source. -/
def boilerPrefixes : List String :=
  ["payment to", "payment from", "direct debit", "card payment", "pos", "purchase"]

/-- Strip one boilerplate prefix (case-insensitive) together with the
whitespace that follows it. -/
def stripBoiler (s : String) : String :=
  match boilerPrefixes.find? (fun b => jsStartsWith (jsToLower s) b) with
  | some b => String.mk ((s.data.drop b.length).dropWhile jsIsSpace)
  | none => s

/-- The source form `cleanDescription(desc, payee)`. -/
def cleanDescription (desc : String) (payee : String) : String :=
  let text :=
    if desc = "" ∨ jsToLower desc = "unknown" ∨ jsTrim desc = "" then
      (if payee = "" then "Transaction" else payee)
    else desc
  if text = "" then "Transaction"
  else
    let cleaned := jsTrim text
    let cleaned :=
      if cleaned = jsToUpper cleaned ∧ cleaned.length > 3 then titleCase cleaned
      else cleaned
    let cleaned := stripBoiler cleaned
    let out := String.mk (cleaned.data.take 80)
    if out = "" then "Transaction" else out

example : cleanDescription "FACEBOOK ADS PAYMENT" "Facebook" = "Facebook Ads Payment" := by
  decide
example : cleanDescription "" "" = "Transaction" := by decide

/-! ### CSV line tokenizer (`parseCSVLine`, page.tsx lines 3977-3996) -/

/-- The source form `current.trim().replace(/^"|"$/g, "")`: trim, then drop one leading
and one trailing double quote. -/
def finishField (cs : List Char) : String :=
  let t := (jsTrim (String.mk cs)).data
  let t := match t with
    | '"' :: rest => rest
    | other => other
  let t := match t.reverse with
    | '"' :: rest => rest.reverse
    | _ => t
  String.mk t

def parseCSVLineAux : List Char → Bool → List Char → List String → List String
  | [], _, current, acc => acc ++ [finishField current]
  | ch :: rest, inQuotes, current, acc =>
    if ch = '"' then parseCSVLineAux rest (!inQuotes) current acc
    else if ch = ',' ∧ inQuotes = false then
      parseCSVLineAux rest inQuotes [] (acc ++ [finishField current])
    else parseCSVLineAux rest inQuotes (current ++ [ch]) acc

/-- The source form `parseCSVLine(line)`: quote-aware splitting on commas; quote
characters toggle quoting state and are never emitted. -/
def parseCSVLine (line : String) : List String :=
  parseCSVLineAux line.data false [] []

example : parseCSVLine "a, \"b,c\" ,d" = ["a", "b,c", "d"] := by decide

/-! ### Date parsing (`parseDate`, page.tsx lines 3998-4030).
`new Date().toISOString().split("T")[0]` (today) and the engine-defined
`new Date(dateStr)` parser are environment facilities, passed in as the
parameters `today` and `native` (`native` returns the ISO date part on
success and `none` when the parse yields an invalid date). -/

/-- The source form `/^\d{4}-\d{2}-\d{2}$/.test(s)`. -/
def isYMD (s : String) : Bool :=
  match s.data with
  | [a, b, c, d, '-', e, f, '-', g, h] =>
    a.isDigit && b.isDigit && c.isDigit && d.isDigit &&
    e.isDigit && f.isDigit && g.isDigit && h.isDigit
  | _ => false

/-- The source form `dateStr.trim().split(" ")[0]`. -/
def dropTimePart (dateStr : String) : String :=
  ((jsSplitChar ' ' (jsTrim dateStr)).headD "")

/-- The source form `cleaned.split(/[\/\-]/)`. -/
def splitDateSeps (s : String) : List String :=
  (splitChars (fun c => c = '/' ∨ c = '-') s.data).map String.mk

/-- The source form `parseDate(dateStr)`. -/
def parseDate (today : String) (native : String → Option String)
    (dateStr : String) : String :=
  if dateStr = "" then today
  else
    let cleaned := dropTimePart dateStr
    if isYMD cleaned then cleaned
    else
      let parts := splitDateSeps cleaned
      match parts with
      | [p0, p1, p2] =>
        let a := jsParseInt p0
        let b := jsParseInt p1
        let c := jsParseInt p2
        if jsGT c 1000 then
          if jsGT a 12 then
            jsIntToString c ++ "-" ++ padStart2 (jsIntToString b) ++ "-" ++
              padStart2 (jsIntToString a)
          else
            jsIntToString c ++ "-" ++ padStart2 (jsIntToString a) ++ "-" ++
              padStart2 (jsIntToString b)
        else if jsGT a 1000 then
          jsIntToString a ++ "-" ++ padStart2 (jsIntToString b) ++ "-" ++
            padStart2 (jsIntToString c)
        else
          match native dateStr with
          | some d => d
          | none => today
      | _ =>
        match native dateStr with
        | some d => d
        | none => today

example : parseDate "T" (fun _ => none) "2025-01-02 10:00" = "2025-01-02" := by decide
example : parseDate "T" (fun _ => none) "13/05/2021" = "2021-05-13" := by decide
example : parseDate "T" (fun _ => none) "05/13/2021" = "2021-05-13" := by decide
example : parseDate "T" (fun _ => none) "2021/5/6" = "2021-05-06" := by decide
example : parseDate "T" (fun _ => none) "gibberish" = "T" := by decide

/-! ### Data model.  The `id` field (`crypto.randomUUID()`) is
environment randomness which no claim depends on; it is omitted from the
embedded record.  Optional TypeScript fields become `Option`s
(`undefined` = `none`). -/

structure Transaction where
  date : String
  description : String
  reference : String
  bank : String
  account : String
  type : String
  category : String
  amount : ℚ
  currency : String
  originalAmount : Option ℚ := none
  originalCurrency : Option String := none
  payee : Option String := none
  accountNumber : Option String := none
  transactionType : Option String := none
  status : Option String := none
  balance : Option ℚ := none
  period : String := ""
deriving Repr, DecidableEq

structure TeamMember where
  name : String
  role : String := ""
  baseSalary : ℚ := 0
  beneficiaryAccount : Option String := none
deriving Repr, DecidableEq

/-- The source form `RELAY_ACCOUNT` (page.tsx line 3718): the hardcoded own-Relay
account used to mark Revolut transfers as internal. -/
def RELAY_ACCOUNT : String := "200000805781"

/-! ### Transaction classifiers (the per-dialect branching of
`parseCSVLocally`, page.tsx lines 3770-3797 and 3860-3903) -/

/-- The source form `/^(revolut|relay)$/i.test(payee)`: case-insensitive exact match
against the sibling-bank set. -/
def isFromOtherBank (payee : String) : Bool :=
  jsToLower payee == "revolut" || jsToLower payee == "relay"

/-- Relay (dialect A) type/category decision, page.tsx lines 3770-3797.
Returns `(type, category)`. -/
def classifyRelay (txType payee rawDesc : String) (amount : ℚ) : String × String :=
  let txTypeLower := jsToLower txType
  if txTypeLower = "spend" then
    ("expense", detectCategory rawDesc payee)
  else if txTypeLower = "receive" then
    if isFromOtherBank payee then ("internal", "Transfer")
    else ("income", "Sales")
  else if jsIncludes txTypeLower "transfer" then
    ("internal", "Transfer")
  else if amount > 0 then ("income", "Sales")
  else ("expense", detectCategory rawDesc payee)

/-- Revolut (dialect B) type/category decision, page.tsx
lines 3860-3903.  `category0` is the keyword category computed before
the branch (`detectCategory(rawDesc, "")`); `beneficiaryAccount` is the
trimmed beneficiary field with `undefined` collapsed to `""` (both are
falsy and compare unequal to every nonempty account string, so the
collapse preserves every branch decision). -/
def classifyRevolut (revolutType beneficiaryAccount : String)
    (teamMembers : List TeamMember) (amount : ℚ) (category0 : String) :
    String × String :=
  if revolutType = "CARD_PAYMENT" ∨ revolutType = "FEE" then
    ("expense", if revolutType = "FEE" then "Fees" else category0)
  else if revolutType = "TOPUP" then ("income", "Sales")
  else if revolutType = "REFUND" ∨ revolutType = "CARD_REFUND" then
    ("income", "Refunds")
  else if revolutType = "EXCHANGE" then ("internal", "Transfer")
  else if revolutType = "TRANSFER" then
    if beneficiaryAccount = "" then ("internal", "Transfer")
    else if beneficiaryAccount = RELAY_ACCOUNT then ("internal", "Transfer")
    else
      match teamMembers.find? (fun m => m.beneficiaryAccount == some beneficiaryAccount) with
      | some _ => ("expense", "Payroll")
      | none => ("expense", "Other")
  else (if amount > 0 then "income" else "expense", category0)

/-! ### Per-dialect field extractors.  Column indices are computed once
per file from the lower-cased trimmed headers; `-1` means "column not
found" exactly as `indexOf`/`findIndex` return it. -/

structure RelayIdx where
  date : Int
  payee : Int
  accountNum : Int
  txType : Int
  desc : Int
  ref : Int
  status : Int
  amount : Int
  currency : Int
  balance : Int
deriving Repr

def relayIdx (headers : List String) : RelayIdx :=
  { date := jsIndexOf "date" headers
    payee := jsIndexOf "payee" headers
    accountNum := jsIndexOf "account #" headers
    txType := jsIndexOf "transaction type" headers
    desc := jsIndexOf "description" headers
    ref := jsIndexOf "reference" headers
    status := jsIndexOf "status" headers
    amount := jsIndexOf "amount" headers
    currency := jsIndexOf "currency" headers
    balance := jsIndexOf "balance" headers }

structure RevolutIdx where
  date : Int
  id : Int
  type : Int
  state : Int
  desc : Int
  ref : Int
  amount : Int
  currency : Int
  balance : Int
  beneficiary : Int
  beneficiaryName : Int
deriving Repr

def revolutIdx (headers : List String) : RevolutIdx :=
  { date := jsFindIndex
      (fun h => jsIncludes h "date completed" || jsIncludes h "date started") headers
    id := jsIndexOf "id" headers
    type := jsIndexOf "type" headers
    state := jsIndexOf "state" headers
    desc := jsIndexOf "description" headers
    ref := jsIndexOf "reference" headers
    amount := jsIndexOf "amount" headers
    currency := if jsIndexOf "payment currency" headers ≠ -1 then
        jsIndexOf "payment currency" headers
      else jsIndexOf "currency" headers
    balance := jsIndexOf "balance" headers
    beneficiary := jsIndexOf "beneficiary account number" headers
    beneficiaryName := jsIndexOf "beneficiary name" headers }

structure GenericIdx where
  date : Int
  desc : Int
  amount : Int
  currency : Int
deriving Repr

def genericIdx (headers : List String) : GenericIdx :=
  { date := jsFindIndex (fun h => jsIncludes h "date") headers
    desc := jsFindIndex (fun h => jsIncludes h "description" || jsIncludes h "memo") headers
    amount := jsFindIndex (fun h => jsIncludes h "amount" || jsIncludes h "value") headers
    currency := jsFindIndex (fun h => jsIncludes h "currency") headers }

/-- One Relay data row (the `isRelay` loop body, page.tsx
lines 3750-3825); `none` = the row is skipped. -/
def processRelayRow (today : String) (native : String → Option String)
    (bankName : String) (_teamMembers : List TeamMember) (rates : RateTable)
    (idx : RelayIdx) (values : List String) : Option Transaction :=
  if values.length < 2 then none
  else
    let amountStr := jsOr (jsGet values idx.amount) "0"
    let amount := parseAmount amountStr
    if amount = 0 then none
    else
      let payee := jsOr (jsGet values idx.payee) ""
      let accountNum := jsOr (jsGet values idx.accountNum) ""
      let txType := jsOr (jsGet values idx.txType) ""
      let rawDesc := jsOr (jsGet values idx.desc) ""
      let reference := jsOr (jsGet values idx.ref) ""
      let status := jsOr (jsGet values idx.status) ""
      let balanceStr := jsOr (jsGet values idx.balance) ""
      let balance := jsOptNum (parseAmount balanceStr)
      let description := cleanDescription rawDesc payee
      let tc := classifyRelay txType payee rawDesc amount
      let date := parseDate today native (jsOr (jsGet values idx.date) "")
      let originalCurrency := jsOr (jsGet values idx.currency) "USD"
      let amountInUSD := convertToUSD amount originalCurrency rates
      some
        { date := date
          description := description
          reference := if reference = "" then rawDesc else reference
          bank := bankName
          account := originalCurrency
          type := tc.1
          category := tc.2
          amount := amountInUSD
          currency := "USD"
          originalAmount := if originalCurrency ≠ "USD" then some amount else none
          originalCurrency := if originalCurrency ≠ "USD" then some originalCurrency else none
          payee := jsUndefIfEmpty payee
          accountNumber := jsUndefIfEmpty accountNum
          transactionType := jsUndefIfEmpty txType
          status := jsUndefIfEmpty status
          balance := balance }

/-- One Revolut data row (the `isRevolut` loop body, page.tsx
lines 3840-3931). -/
def processRevolutRow (today : String) (native : String → Option String)
    (bankName : String) (teamMembers : List TeamMember) (rates : RateTable)
    (idx : RevolutIdx) (values : List String) : Option Transaction :=
  if values.length < 5 then none
  else
    let amountStr := jsOr (jsGet values idx.amount) "0"
    let amount := parseAmount amountStr
    if amount = 0 then none
    else
      let revolutType := jsToUpper (jsOr (jsGet values idx.type) "")
      let rawDesc := jsOr (jsGet values idx.desc) ""
      let reference := if idx.ref ≥ 0 then jsOr (jsGet values idx.ref) "" else ""
      let state := if idx.state ≥ 0 then jsOr (jsGet values idx.state) "" else ""
      let beneficiaryAccount :=
        if idx.beneficiary ≥ 0 then jsTrim ((jsGet values idx.beneficiary).getD "") else ""
      let beneficiaryName :=
        if idx.beneficiaryName ≥ 0 then jsTrim ((jsGet values idx.beneficiaryName).getD "")
        else ""
      let balanceStr := if idx.balance ≥ 0 then jsOr (jsGet values idx.balance) "" else ""
      let balance := jsOptNum (parseAmount balanceStr)
      let description := cleanDescription rawDesc ""
      let category0 := detectCategory rawDesc ""
      let tc := classifyRevolut revolutType beneficiaryAccount teamMembers amount category0
      let date := parseDate today native (jsOr (jsGet values idx.date) "")
      let originalCurrency := jsOr (jsGet values idx.currency) "USD"
      let amountInUSD := convertToUSD amount originalCurrency rates
      some
        { date := date
          description := description
          reference := if reference = "" then rawDesc else reference
          bank := bankName
          account := originalCurrency
          type := tc.1
          category := tc.2
          amount := amountInUSD
          currency := "USD"
          originalAmount := if originalCurrency ≠ "USD" then some amount else none
          originalCurrency := if originalCurrency ≠ "USD" then some originalCurrency else none
          payee := jsUndefIfEmpty beneficiaryName
          accountNumber := jsUndefIfEmpty beneficiaryAccount
          transactionType := jsUndefIfEmpty revolutType
          status := jsUndefIfEmpty state
          balance := balance }

/-- One generic/Mercury data row (the fallback loop body, page.tsx
lines 3939-3971). -/
def processGenericRow (today : String) (native : String → Option String)
    (bankName : String) (rates : RateTable) (idx : GenericIdx)
    (values : List String) : Option Transaction :=
  if values.length < 2 then none
  else
    let amountStr := jsOr (jsGet values (if idx.amount ≥ 0 then idx.amount else 2)) "0"
    let amount := parseAmount amountStr
    if amount = 0 then none
    else
      let rawDesc := jsOr (jsGet values (if idx.desc ≥ 0 then idx.desc else 1)) ""
      let description := cleanDescription rawDesc ""
      let category := detectCategory rawDesc ""
      let date := parseDate today native
        (jsOr (jsGet values (if idx.date ≥ 0 then idx.date else 0)) "")
      let originalCurrency := jsOr (jsGet values idx.currency) "USD"
      let amountInUSD := convertToUSD amount originalCurrency rates
      some
        { date := date
          description := description
          reference := rawDesc
          bank := bankName
          account := originalCurrency
          type := if amount > 0 then "income" else "expense"
          category := category
          amount := amountInUSD
          currency := "USD"
          originalAmount := if originalCurrency ≠ "USD" then some amount else none
          originalCurrency := if originalCurrency ≠ "USD" then some originalCurrency else none }

/-! ### Bank format detection and the file-level parser
(`parseCSVLocally`, page.tsx lines 3720-3975) -/

def headersOf (headerLine : String) : List String :=
  (parseCSVLine headerLine).map (fun h => jsTrim (jsToLower h))

def isRelayHeaders (headers : List String) : Bool :=
  headers.contains "payee" && headers.contains "transaction type"

def isRevolutHeaders (headers : List String) : Bool :=
  (headers.any fun h => jsIncludes h "date started" || jsIncludes h "date completed") &&
    headers.contains "type"

def isMercuryHeaders (headers : List String) : Bool :=
  headers.contains "bank description"

def bankNameOf (headers : List String) : String :=
  if isRelayHeaders headers then "Relay"
  else if isRevolutHeaders headers then "Revolut"
  else if isMercuryHeaders headers then "Mercury"
  else "Imported"

/-- The source form `parseCSVLocally(csvContent, fileName, teamMembers, exchangeRates)`.
`fileName` is accepted and unused, as in the source. -/
def parseCSVLocally (today : String) (native : String → Option String)
    (csvContent _fileName : String) (teamMembers : List TeamMember)
    (rates : RateTable) : List Transaction :=
  let lines := (jsSplitChar '\n' csvContent).filter (fun l => jsTrim l ≠ "")
  if lines.length < 2 then []
  else
    let headers := headersOf (lines.headD "")
    let dataLines := lines.drop 1
    let bankName := bankNameOf headers
    if isRelayHeaders headers then
      let idx := relayIdx headers
      dataLines.filterMap fun line =>
        processRelayRow today native bankName teamMembers rates idx (parseCSVLine line)
    else if isRevolutHeaders headers then
      let idx := revolutIdx headers
      dataLines.filterMap fun line =>
        processRevolutRow today native bankName teamMembers rates idx (parseCSVLine line)
    else
      let idx := genericIdx headers
      dataLines.filterMap fun line =>
        processGenericRow today native bankName rates idx (parseCSVLine line)

/-! ### Import batch (`processFiles`, page.tsx lines 4106-4131): one
period label per upload confirmation, stamped onto every transaction of
every file. -/

def monthNamesShort : List String :=
  ["Jan", "Feb", "Mar", "Apr", "May", "Jun", "Jul", "Aug", "Sep", "Oct", "Nov", "Dec"]

/-- The template literal of the source interpolates
`monthNamesShort[selectedMonth]`, which is `undefined` when the index is
out of range. -/
def mkPeriod (selectedMonth : Nat) (selectedYear : Int) : String :=
  monthNamesShort.getD selectedMonth "undefined" ++ " " ++ toString selectedYear

/-- The batch-assembly loop of `processFiles`: parse each file, stamp
the user-selected period onto each transaction, concatenate.  Files are
`(csvContent, fileName)` pairs. -/
def processFilesCore (today : String) (native : String → Option String)
    (selectedMonth : Nat) (selectedYear : Int)
    (files : List (String × String)) (teamMembers : List TeamMember)
    (rates : RateTable) : List Transaction :=
  let period := mkPeriod selectedMonth selectedYear
  (files.map fun f =>
    (parseCSVLocally today native f.1 f.2 teamMembers rates).map
      fun t => { t with period := period }).flatten

/-! ### Retroactive rule applier (`handleApplyRulesToExisting`, page.tsx
lines 3339-3395).  Persistence writes are assumed to succeed (the count
increments on every non-error write); the resulting ledger is the one
`loadData` reloads. -/

inductive MatchType where
  | contains
  | starts_with
  | exact
deriving Repr, DecidableEq

structure CategorizationRule where
  keyword : String
  category : String
  match_type : MatchType
deriving Repr, DecidableEq

/-- The match test of the source switch: `exact` is full-string
equality, `starts_with` is a prefix test, anything else (`contains`) is
a substring test, all against
`` `${tx.description} ${tx.payee || ""}`.toLowerCase() ``. -/
def ruleMatches (tx : Transaction) (rule : CategorizationRule) : Bool :=
  let searchText := jsToLower (tx.description ++ " " ++ tx.payee.getD "")
  match rule.match_type with
  | .exact => searchText == rule.keyword
  | .starts_with => jsStartsWith searchText rule.keyword
  | .contains => jsIncludes searchText rule.keyword

/-- The per-transaction effect of the applier: the first matching rule
(if any) whose target category differs overwrites the category; no
other field is touched. -/
def applyRuleUpdate (rules : List CategorizationRule) (tx : Transaction) :
    Transaction :=
  match rules.find? (ruleMatches tx) with
  | some rule =>
    if rule.category ≠ tx.category then { tx with category := rule.category }
    else tx
  | none => tx

/-- The filter of the source (`txsToUpdate`): a rule matches and its
category differs from the stored one. -/
def needsUpdate (rules : List CategorizationRule) (tx : Transaction) : Bool :=
  match rules.find? (ruleMatches tx) with
  | some rule => decide (tx.category ≠ rule.category)
  | none => false

/-- The source form `handleApplyRulesToExisting`: returns the reloaded ledger and the
updated-transactions count (persistence writes are assumed to
succeed). -/
def handleApplyRulesToExisting (rules : List CategorizationRule)
    (transactions : List Transaction) : List Transaction × Nat :=
  if rules.isEmpty then (transactions, 0)
  else
    (transactions.map (applyRuleUpdate rules),
     (transactions.filter (needsUpdate rules)).length)

/-! ### Spec-side date chain.  For claim C8 the spec describes
`parseDate` as an ordered fallback chain; the chain is written here as
`Option`-valued steps composed in the order the spec states them, to be
compared with the source-derived `parseDate` above. -/

/-- Spec step 1: a string matching `YYYY-MM-DD` (after dropping a
trailing time part) is returned verbatim. -/
def specTryVerbatim (dateStr : String) : Option String :=
  let cleaned := dropTimePart dateStr
  if isYMD cleaned then some cleaned else none

/-- Spec step 2: an `A/B/C` or `A-B-C` triplet whose third component
exceeds 1000 is day-first when the first component exceeds 12 and
month-first otherwise; a triplet whose first component exceeds 1000 is
year-first. -/
def specTryTriplet (dateStr : String) : Option String :=
  match splitDateSeps (dropTimePart dateStr) with
  | [p0, p1, p2] =>
    let a := jsParseInt p0
    let b := jsParseInt p1
    let c := jsParseInt p2
    if jsGT c 1000 then
      some (if jsGT a 12 then
          jsIntToString c ++ "-" ++ padStart2 (jsIntToString b) ++ "-" ++
            padStart2 (jsIntToString a)
        else
          jsIntToString c ++ "-" ++ padStart2 (jsIntToString a) ++ "-" ++
            padStart2 (jsIntToString b))
    else if jsGT a 1000 then
      some (jsIntToString a ++ "-" ++ padStart2 (jsIntToString b) ++ "-" ++
        padStart2 (jsIntToString c))
    else none
  | _ => none

/-- The date parser as the spec phrases it: empty input falls to today;
otherwise the verbatim rule, then the triplet rule, then native parsing,
then today. -/
def parseDateSpec (today : String) (native : String → Option String)
    (dateStr : String) : String :=
  if dateStr = "" then today
  else
    (((specTryVerbatim dateStr).orElse fun _ => specTryTriplet dateStr).orElse
      fun _ => native dateStr).getD today

/-! ### Concrete sample data used by witness theorems -/

/-- A generic-dialect data row: date, description, amount. -/
def sampleGenericRow : List String := ["2025-01-02", "stuff", "7"]

/-- The transaction the generic extractor produces from
`sampleGenericRow` with an empty rate table. -/
def sampleGenericTx : Transaction :=
  { date := "2025-01-02", description := "stuff", reference := "stuff",
    bank := "Imported", account := "USD", type := "income",
    category := "Other", amount := 7, currency := "USD" }

/-- A Revolut-dialect data row carrying an unknown currency, for the C7
witness: date, type, description, reference, amount, currency,
beneficiary account. -/
def sampleRevolutRow : List String :=
  ["2025-01-02", "CARD_PAYMENT", "Notion subscription", "ref1", "-3", "XYZ", ""]

/-- Column indices for `sampleRevolutRow`. -/
def sampleRevolutIdx : RevolutIdx :=
  { date := 0, id := -1, type := 1, state := -1, desc := 2, ref := 3,
    amount := 4, currency := 5, balance := -1, beneficiary := 6,
    beneficiaryName := -1 }

/-- The transaction the Revolut extractor produces from
`sampleRevolutRow` with an empty rate table. -/
def sampleRevolutTx : Transaction :=
  { date := "2025-01-02", description := "Notion subscription",
    reference := "ref1", bank := "Revolut", account := "XYZ",
    type := "expense", category := "Software", amount := -3,
    currency := "USD", originalAmount := some (-3),
    originalCurrency := some "XYZ",
    transactionType := some "CARD_PAYMENT" }

/-- A Relay-dialect data row for the C7 witness: date, payee,
transaction type, description, amount (USD, no currency column). -/
def sampleRelayRow : List String :=
  ["2025-01-02", "Shopify", "Receive", "Monthly payout", "120"]

/-- Column indices for `sampleRelayRow`. -/
def sampleRelayIdx : RelayIdx :=
  { date := 0, payee := 1, accountNum := -1, txType := 2, desc := 3,
    ref := -1, status := -1, amount := 4, currency := -1, balance := -1 }

/-- The transaction the Relay extractor produces from `sampleRelayRow`
with an empty rate table. -/
def sampleRelayTx : Transaction :=
  { date := "2025-01-02", description := "Monthly payout",
    reference := "Monthly payout", bank := "Relay", account := "USD",
    type := "income", category := "Sales", amount := 120,
    currency := "USD", payee := some "Shopify",
    transactionType := some "Receive" }

/-! ## Shared helper lemmas -/

theorem jsOr_USD_ne_empty (o : Option String) : jsOr o "USD" ≠ "" := by
  unfold jsOr
  match o with
  | none => decide
  | some s =>
    by_cases h : s = ""
    · simp [h]
    · simp [h]

theorem convertToUSD_of_ne {c : String} (h1 : c ≠ "USD") (h2 : c ≠ "")
    (a : ℚ) (rates : RateTable) :
    convertToUSD a c rates =
      match List.lookup c rates with
      | none => a
      | some r => if r = 0 then a else a / r := by
  simp [convertToUSD, h1, h2]

theorem lookup_pos {rates : RateTable} {c : String} {r : ℚ}
    (hr : ∀ p ∈ rates, 0 < p.2) (h : List.lookup c rates = some r) : 0 < r := by
  rw [List.lookup_eq_some_iff] at h
  obtain ⟨l₁, l₂, rfl, -⟩ := h
  exact hr (c, r) (by simp)

theorem convertToUSD_sign {rates : RateTable} (hr : ∀ p ∈ rates, 0 < p.2)
    (a : ℚ) (c : String) :
    (0 < a → 0 < convertToUSD a c rates) ∧ (a < 0 → convertToUSD a c rates < 0) := by
  unfold convertToUSD
  split
  · exact ⟨id, id⟩
  · cases hl : List.lookup c rates with
    | none => exact ⟨id, id⟩
    | some r =>
      have hpos : 0 < r := lookup_pos hr hl
      simp only [ne_of_gt hpos, if_false]
      exact ⟨fun ha => div_pos ha hpos, fun ha => div_neg_of_neg_of_pos ha hpos⟩

/-! ## Claim theorems -/

/-- C6 counterexample: the claim says the converter "returns amount
divided by rates[fromCurrency] when that rate is present", but the
source guards with `if (!rate)`, so a present-but-zero rate entry
returns the amount unchanged, not `amount / 0`. -/
theorem claim_C6_counterexample :
    List.lookup "EUR" [("EUR", (0 : ℚ))] = some 0 ∧
    convertToUSD 5 "EUR" [("EUR", (0 : ℚ))] = 5 ∧
    ¬ convertToUSD 5 "EUR" [("EUR", (0 : ℚ))] = 5 / (0 : ℚ) := by
  refine ⟨rfl, by decide, ?_⟩
  have h : convertToUSD 5 "EUR" [("EUR", (0 : ℚ))] = 5 := by decide
  rw [h]
  norm_num

/-- C6 (amended): `convertToUSD` returns the amount unchanged when the
source currency is USD or absent, returns `amount / rate` when a
nonzero rate entry is present, and degrades to the identity both when
the currency has no entry and when its entry is zero (the falsy-rate
guard); it is a total function, so it never throws and never drops the
transaction. -/
theorem claim_C6_convert_currency :
    ∀ (amount : ℚ) (c : String) (rates : RateTable),
    ((c = "USD" ∨ c = "") → convertToUSD amount c rates = amount) ∧
    (List.lookup c rates = none → convertToUSD amount c rates = amount) ∧
    (List.lookup c rates = some 0 → convertToUSD amount c rates = amount) ∧
    (∀ r : ℚ, List.lookup c rates = some r → r ≠ 0 → ¬(c = "USD" ∨ c = "") →
      convertToUSD amount c rates = amount / r) := by
  intro amount c rates
  refine ⟨fun h => by simp [convertToUSD, h], fun h => ?_, fun h => ?_, ?_⟩
  · by_cases hc : c = "USD" ∨ c = ""
    · simp [convertToUSD, hc]
    · simp [convertToUSD, hc, h]
  · by_cases hc : c = "USD" ∨ c = ""
    · simp [convertToUSD, hc]
    · simp [convertToUSD, hc, h]
  · intro r hrl hr0 hc
    simp [convertToUSD, hc, hrl, hr0]

/-- C6 witness. -/
theorem claim_C6_witness :
    convertToUSD 10 "EUR" [("EUR", (2 : ℚ))] = 10 / 2 :=
  (claim_C6_convert_currency 10 "EUR" [("EUR", 2)]).2.2.2 2 rfl
    (by norm_num) (by decide)

/-- C1: for a Revolut-dialect row whose type field upper-cases to
`TRANSFER`, the classifier assigns internal/Transfer when the
beneficiary account is empty or equals the hardcoded `RELAY_ACCOUNT`,
expense/Payroll when the (otherwise unmatched) beneficiary account
string-equals the registered `beneficiaryAccount` of some team member, and
expense/Other for any other non-empty beneficiary account. -/
theorem claim_C1_revolut_transfer :
    ∀ (typeField beneficiaryAccount : String) (teamMembers : List TeamMember)
      (amount : ℚ) (category0 : String),
    jsToUpper typeField = "TRANSFER" →
    (beneficiaryAccount = "" →
      classifyRevolut (jsToUpper typeField) beneficiaryAccount teamMembers amount category0 =
        ("internal", "Transfer")) ∧
    (beneficiaryAccount = RELAY_ACCOUNT →
      classifyRevolut (jsToUpper typeField) beneficiaryAccount teamMembers amount category0 =
        ("internal", "Transfer")) ∧
    (beneficiaryAccount ≠ "" → beneficiaryAccount ≠ RELAY_ACCOUNT →
      (teamMembers.find? fun m => m.beneficiaryAccount == some beneficiaryAccount).isSome →
      classifyRevolut (jsToUpper typeField) beneficiaryAccount teamMembers amount category0 =
        ("expense", "Payroll")) ∧
    (beneficiaryAccount ≠ "" → beneficiaryAccount ≠ RELAY_ACCOUNT →
      (teamMembers.find? fun m => m.beneficiaryAccount == some beneficiaryAccount) = none →
      classifyRevolut (jsToUpper typeField) beneficiaryAccount teamMembers amount category0 =
        ("expense", "Other")) := by
  intro tf ben members amount cat0 htf
  rw [htf]
  refine ⟨fun h1 => ?_, fun h1 => ?_, fun h1 h2 h3 => ?_, fun h1 h2 h3 => ?_⟩
  · simp +decide [classifyRevolut, h1]
  · by_cases h0 : ben = ""
    · simp +decide [classifyRevolut, h0]
    · simp +decide [classifyRevolut, h0, h1]
  · obtain ⟨m, hm⟩ := Option.isSome_iff_exists.mp h3
    simp +decide [classifyRevolut, h1, h2, hm]
  · simp +decide [classifyRevolut, h1, h2, h3]

/-- C1 witness. -/
theorem claim_C1_witness :
    classifyRevolut (jsToUpper "Transfer") "999"
      [{ name := "Alice", beneficiaryAccount := some "999" }] (-2100) "Other" =
      ("expense", "Payroll") :=
  (claim_C1_revolut_transfer "Transfer" "999"
      [{ name := "Alice", beneficiaryAccount := some "999" }] (-2100) "Other"
      (by decide)).2.2.1 (by decide) (by decide) (by decide)

/-- C2: for a Relay-dialect row, a type lower-casing to `receive` is
internal/Transfer when the payee case-insensitively exact-matches a
sibling-bank name (`revolut`/`relay`) and income/Sales otherwise; a
type containing `transfer` (after the spend/receive checks) is
internal/Transfer unconditionally; any other type falls to the
sign-based default (positive amount income/Sales, otherwise expense
with the keyword-derived category), never an error. -/
theorem claim_C2_relay_classification :
    ∀ (txType payee rawDesc : String) (amount : ℚ),
    (jsToLower txType = "receive" →
      ((jsToLower payee = "revolut" ∨ jsToLower payee = "relay") →
        classifyRelay txType payee rawDesc amount = ("internal", "Transfer")) ∧
      (¬(jsToLower payee = "revolut" ∨ jsToLower payee = "relay") →
        classifyRelay txType payee rawDesc amount = ("income", "Sales"))) ∧
    (jsToLower txType ≠ "spend" → jsToLower txType ≠ "receive" →
      jsIncludes (jsToLower txType) "transfer" = true →
      classifyRelay txType payee rawDesc amount = ("internal", "Transfer")) ∧
    (jsToLower txType ≠ "spend" → jsToLower txType ≠ "receive" →
      jsIncludes (jsToLower txType) "transfer" = false →
      classifyRelay txType payee rawDesc amount =
        if amount > 0 then ("income", "Sales")
        else ("expense", detectCategory rawDesc payee)) := by
  intro txType payee rawDesc amount
  refine ⟨fun h => ⟨fun hp => ?_, fun hp => ?_⟩, fun h1 h2 h3 => ?_, fun h1 h2 h3 => ?_⟩
  · rcases hp with hp | hp <;>
      simp +decide [classifyRelay, isFromOtherBank, h, hp]
  · rw [not_or] at hp
    simp +decide [classifyRelay, isFromOtherBank, h, hp.1, hp.2]
  · simp [classifyRelay, h1, h2, h3]
  · simp [classifyRelay, h1, h2, h3]

/-- C2 witness. -/
theorem claim_C2_witness :
    classifyRelay "Receive" "Revolut" "topup" 500 = ("internal", "Transfer") :=
  ((claim_C2_relay_classification "Receive" "Revolut" "topup" 500).1
    (by decide)).1 (Or.inl (by decide))

/-- C10: dialect detection follows a fixed precedence: the Relay
signature wins even when the Revolut or Mercury signatures also hold
(and the file is then processed by the Relay extractor with bank label
`Relay`); otherwise Revolut, then Mercury, then the generic fallback,
so exactly one bank label is assigned per file. -/
theorem claim_C10_dialect_precedence :
    ∀ (headers : List String),
    (isRelayHeaders headers = true → bankNameOf headers = "Relay") ∧
    (isRelayHeaders headers = false → isRevolutHeaders headers = true →
      bankNameOf headers = "Revolut") ∧
    (isRelayHeaders headers = false → isRevolutHeaders headers = false →
      isMercuryHeaders headers = true → bankNameOf headers = "Mercury") ∧
    (isRelayHeaders headers = false → isRevolutHeaders headers = false →
      isMercuryHeaders headers = false → bankNameOf headers = "Imported") ∧
    (∀ (today : String) (native : String → Option String)
      (csvContent fileName : String) (teamMembers : List TeamMember)
      (rates : RateTable),
      ¬((jsSplitChar '\n' csvContent).filter (fun l => jsTrim l ≠ "")).length < 2 →
      headersOf (((jsSplitChar '\n' csvContent).filter
        (fun l => jsTrim l ≠ "")).headD "") = headers →
      isRelayHeaders headers = true →
      parseCSVLocally today native csvContent fileName teamMembers rates =
        (((jsSplitChar '\n' csvContent).filter (fun l => jsTrim l ≠ "")).drop 1).filterMap
          fun line => processRelayRow today native "Relay" teamMembers rates
            (relayIdx headers) (parseCSVLine line)) := by
  intro headers
  refine ⟨fun h1 => ?_, fun h1 h2 => ?_, fun h1 h2 h3 => ?_, fun h1 h2 h3 => ?_,
    fun today native csvContent fileName teamMembers rates hlen hh h1 => ?_⟩
  · simp [bankNameOf, h1]
  · simp [bankNameOf, h1, h2]
  · simp [bankNameOf, h1, h2, h3]
  · simp [bankNameOf, h1, h2, h3]
  · rw [parseCSVLocally, if_neg hlen]
    simp only [hh, h1, if_pos, bankNameOf, if_true]

/-- C10 witness: a header set satisfying all three signatures at once
is still labelled (and parsed as) Relay. -/
theorem claim_C10_witness :
    bankNameOf ["payee", "transaction type", "date started", "type",
      "bank description"] = "Relay" :=
  (claim_C10_dialect_precedence ["payee", "transaction type", "date started",
    "type", "bank description"]).1 (by decide)

/-- C4: in every dialect, a data row whose amount field (after the
strip-and-parse step, which also maps parse failures to 0) yields
exactly 0 produces no transaction: the row processor returns `none`,
never an error. -/
theorem claim_C4_zero_amount_skipped :
    ∀ (today : String) (native : String → Option String) (bank : String)
      (teamMembers : List TeamMember) (rates : RateTable)
      (ir : RelayIdx) (iv : RevolutIdx) (ig : GenericIdx) (values : List String),
    (parseAmount (jsOr (jsGet values ir.amount) "0") = 0 →
      processRelayRow today native bank teamMembers rates ir values = none) ∧
    (parseAmount (jsOr (jsGet values iv.amount) "0") = 0 →
      processRevolutRow today native bank teamMembers rates iv values = none) ∧
    (parseAmount (jsOr (jsGet values (if ig.amount ≥ 0 then ig.amount else 2)) "0") = 0 →
      processGenericRow today native bank rates ig values = none) := by
  intro today native bank teamMembers rates ir iv ig values
  refine ⟨fun h => ?_, fun h => ?_, fun h => ?_⟩
  · simp [processRelayRow, h]
  · simp [processRevolutRow, h]
  · simp [processGenericRow, h]

/-- C4 witness: a Relay row whose amount field reads `0.00`. -/
theorem claim_C4_witness :
    processRelayRow "2025-06-15" (fun _ => none) "Relay" [] []
      { date := 0, payee := 1, accountNum := -1, txType := 2, desc := 3,
        ref := -1, status := -1, amount := 4, currency := -1, balance := -1 }
      ["2025-01-02", "X", "Spend", "hold", "0"] = none :=
  (claim_C4_zero_amount_skipped "2025-06-15" (fun _ => none) "Relay" [] []
    { date := 0, payee := 1, accountNum := -1, txType := 2, desc := 3,
      ref := -1, status := -1, amount := 4, currency := -1, balance := -1 }
    sampleRevolutIdx ⟨0, 1, 2, 3⟩
    ["2025-01-02", "X", "Spend", "hold", "0"]).1 (by decide)

/-- C9: every transaction of one upload confirmation carries the
identical user-chosen "Mon YYYY" period string, across all files of the
batch and independently of the parsed calendar date of each transaction. -/
theorem claim_C9_period_homogeneity :
    ∀ (today : String) (native : String → Option String) (selectedMonth : Nat)
      (selectedYear : Int) (files : List (String × String))
      (teamMembers : List TeamMember) (rates : RateTable),
    (processFilesCore today native selectedMonth selectedYear files teamMembers
      rates).all (fun t => t.period == mkPeriod selectedMonth selectedYear) = true := by
  intro today native m y files members rates
  simp only [processFilesCore, List.all_eq_true]
  intro t ht
  rw [List.mem_flatten] at ht
  obtain ⟨l, hl, htl⟩ := ht
  rw [List.mem_map] at hl
  obtain ⟨f, -, rfl⟩ := hl
  rw [List.mem_map] at htl
  obtain ⟨t0, -, rfl⟩ := htl
  simp

/-! Helper lemmas for C5: the match text only reads `description` and
`payee`, so updating `category` never changes which rule matches. -/

theorem ruleMatches_set_category (tx : Transaction) (c : String)
    (rule : CategorizationRule) :
    ruleMatches { tx with category := c } rule = ruleMatches tx rule := rfl

theorem find?_ruleMatches_set_category (rules : List CategorizationRule)
    (tx : Transaction) (c : String) :
    rules.find? (ruleMatches { tx with category := c }) =
      rules.find? (ruleMatches tx) := rfl

theorem tx_set_category_self (tx : Transaction) :
    { tx with category := tx.category } = tx := rfl

theorem applyRuleUpdate_eq (rules : List CategorizationRule) (tx : Transaction) :
    applyRuleUpdate rules tx =
      match rules.find? (ruleMatches tx) with
      | some rule => { tx with category := rule.category }
      | none => tx := by
  unfold applyRuleUpdate
  cases hf : rules.find? (ruleMatches tx) with
  | none => rfl
  | some rule =>
    by_cases hc : rule.category = tx.category
    · simp only [hc, ne_eq, not_true_eq_false, if_false, tx_set_category_self]
    · simp only [ne_eq, hc, not_false_eq_true, if_true]

theorem needsUpdate_applyRuleUpdate (rules : List CategorizationRule)
    (tx : Transaction) :
    needsUpdate rules (applyRuleUpdate rules tx) = false := by
  rw [applyRuleUpdate_eq]
  cases hf : rules.find? (ruleMatches tx) with
  | none => simp [needsUpdate, hf]
  | some rule =>
    have hfind : rules.find? (ruleMatches { tx with category := rule.category }) =
        some rule := by
      rw [find?_ruleMatches_set_category]
      exact hf
    simp [needsUpdate, hfind]

theorem filter_needsUpdate_map_applyRuleUpdate (rules : List CategorizationRule) :
    ∀ txs : List Transaction,
      (txs.map (applyRuleUpdate rules)).filter (needsUpdate rules) = []
  | [] => rfl
  | tx :: txs => by
    simp only [List.map_cons, List.filter_cons, needsUpdate_applyRuleUpdate,
      Bool.false_eq_true, if_false]
    exact filter_needsUpdate_map_applyRuleUpdate rules txs

/-- C5: the retroactive applier rewrites the category of each
transaction to the target of its first matching rule (touching no other
field and leaving
unmatched transactions alone), returns the count of transactions whose
stored category disagreed with their first matching rule, and is
idempotent: re-running it on the resulting ledger updates zero
transactions. -/
theorem claim_C5_retroactive_apply :
    ∀ (rules : List CategorizationRule) (txs : List Transaction),
    (handleApplyRulesToExisting rules txs).1 = txs.map (fun tx =>
      match rules.find? (ruleMatches tx) with
      | some rule => { tx with category := rule.category }
      | none => tx) ∧
    (handleApplyRulesToExisting rules txs).2 = (txs.filter fun tx =>
      match rules.find? (ruleMatches tx) with
      | some rule => decide (tx.category ≠ rule.category)
      | none => false).length ∧
    (handleApplyRulesToExisting rules
      (handleApplyRulesToExisting rules txs).1).2 = 0 := by
  intro rules txs
  cases rules with
  | nil =>
    refine ⟨?_, ?_, rfl⟩
    · simp [handleApplyRulesToExisting, List.find?]
    · simp [handleApplyRulesToExisting, List.find?, List.filter]
  | cons r0 rs =>
    refine ⟨?_, rfl, ?_⟩
    · exact List.map_congr_left fun tx _ => applyRuleUpdate_eq (r0 :: rs) tx
    · have h1 : (handleApplyRulesToExisting (r0 :: rs) txs).1 =
          txs.map (applyRuleUpdate (r0 :: rs)) := by
        rw [handleApplyRulesToExisting, if_neg (by simp)]
      rw [h1, handleApplyRulesToExisting, if_neg (by simp)]
      simp only
      rw [filter_needsUpdate_map_applyRuleUpdate]
      rfl

/-! Normal forms of the three row processors: the `let`-chains of the
definitions zeta-reduce to explicit conditionals, proved by `rfl`.
These are used to destructure successful rows in the proofs below. -/

theorem processRelayRow_some_fields (today : String)
    (native : String → Option String) (bank : String)
    (teamMembers : List TeamMember) (rates : RateTable) (ir : RelayIdx)
    (values : List String) (t : Transaction)
    (h : processRelayRow today native bank teamMembers rates ir values = some t) :
    ∃ a : ℚ, a ≠ 0 ∧
      a = parseAmount (jsOr (jsGet values ir.amount) "0") ∧
      t.amount = convertToUSD a (jsOr (jsGet values ir.currency) "USD") rates ∧
      t.originalAmount =
        (if jsOr (jsGet values ir.currency) "USD" ≠ "USD" then some a else none) ∧
      t.originalCurrency =
        (if jsOr (jsGet values ir.currency) "USD" ≠ "USD" then
          some (jsOr (jsGet values ir.currency) "USD") else none) := by
  rw [processRelayRow] at h
  split at h
  · exact absurd h (by simp)
  · by_cases h0 : parseAmount (jsOr (jsGet values ir.amount) "0") = 0
    · rw [if_pos h0] at h
      exact absurd h (by simp)
    · rw [if_neg h0] at h
      rw [Option.some.injEq] at h
      subst h
      exact ⟨parseAmount (jsOr (jsGet values ir.amount) "0"), h0, rfl, rfl, rfl, rfl⟩

theorem processRevolutRow_some_fields (today : String)
    (native : String → Option String) (bank : String)
    (teamMembers : List TeamMember) (rates : RateTable) (iv : RevolutIdx)
    (values : List String) (t : Transaction)
    (h : processRevolutRow today native bank teamMembers rates iv values = some t) :
    ∃ a : ℚ, a ≠ 0 ∧
      a = parseAmount (jsOr (jsGet values iv.amount) "0") ∧
      t.amount = convertToUSD a (jsOr (jsGet values iv.currency) "USD") rates ∧
      t.originalAmount =
        (if jsOr (jsGet values iv.currency) "USD" ≠ "USD" then some a else none) ∧
      t.originalCurrency =
        (if jsOr (jsGet values iv.currency) "USD" ≠ "USD" then
          some (jsOr (jsGet values iv.currency) "USD") else none) := by
  rw [processRevolutRow] at h
  split at h
  · exact absurd h (by simp)
  · by_cases h0 : parseAmount (jsOr (jsGet values iv.amount) "0") = 0
    · rw [if_pos h0] at h
      exact absurd h (by simp)
    · rw [if_neg h0] at h
      rw [Option.some.injEq] at h
      subst h
      exact ⟨parseAmount (jsOr (jsGet values iv.amount) "0"), h0, rfl, rfl, rfl, rfl⟩

theorem processGenericRow_some_fields (today : String)
    (native : String → Option String) (bank : String) (rates : RateTable)
    (ig : GenericIdx) (values : List String) (t : Transaction)
    (h : processGenericRow today native bank rates ig values = some t) :
    ∃ a : ℚ, a ≠ 0 ∧
      a = parseAmount (jsOr (jsGet values (if ig.amount ≥ 0 then ig.amount else 2)) "0") ∧
      t.type = (if a > 0 then "income" else "expense") ∧
      t.amount = convertToUSD a (jsOr (jsGet values ig.currency) "USD") rates ∧
      t.originalAmount =
        (if jsOr (jsGet values ig.currency) "USD" ≠ "USD" then some a else none) ∧
      t.originalCurrency =
        (if jsOr (jsGet values ig.currency) "USD" ≠ "USD" then
          some (jsOr (jsGet values ig.currency) "USD") else none) := by
  rw [processGenericRow] at h
  split at h
  · exact absurd h (by simp)
  · by_cases h0 :
      parseAmount (jsOr (jsGet values (if ig.amount ≥ 0 then ig.amount else 2)) "0") = 0
    · rw [if_pos h0] at h
      exact absurd h (by simp)
    · rw [if_neg h0] at h
      rw [Option.some.injEq] at h
      subst h
      exact ⟨parseAmount (jsOr (jsGet values (if ig.amount ≥ 0 then ig.amount else 2)) "0"),
        h0, rfl, rfl, rfl, rfl, rfl⟩

/-- C3 counterexample: a Revolut `TOPUP` row with a negative amount is
classified `income` by the keyword branch (which never inspects the
sign), so the pipeline emits an income transaction with a strictly
negative stored amount. -/
theorem claim_C3_counterexample :
    (parseCSVLocally "2025-06-15" (fun _ => none)
      "Date started,Type,Description,Reference,Amount\n2025-01-02,TOPUP,x,y,-5"
      "revolut.csv" [] []).map (fun t => (t.type, t.amount)) =
      [("income", (-5 : ℚ))] ∧ ¬((0 : ℚ) < -5) := by
  exact ⟨by decide, by norm_num⟩

/-- C3 (amended): the sign invariant holds on the sign-based
classification path: every transaction produced by the generic/Mercury
extractor (whose type is decided purely by the amount sign) satisfies
income ⇒ amount > 0 and expense ⇒ amount < 0, for any rate table with
positive rates.  The keyword-typed Relay/Revolut branches (receive,
TOPUP, REFUND, CARD_REFUND, spend, CARD_PAYMENT, FEE, TRANSFER) assign
the type without consulting the sign, so the invariant is not enforced
there. -/
theorem claim_C3_sign_invariant_generic :
    ∀ (today : String) (native : String → Option String) (bank : String)
      (rates : RateTable) (idx : GenericIdx) (values : List String)
      (t : Transaction),
    (∀ p ∈ rates, 0 < p.2) →
    processGenericRow today native bank rates idx values = some t →
    (t.type = "income" → 0 < t.amount) ∧ (t.type = "expense" → t.amount < 0) := by
  intro today native bank rates idx values t hr h
  obtain ⟨a, ha0, -, hty, hamt, -, -⟩ :=
    processGenericRow_some_fields today native bank rates idx values t h
  by_cases hpos : a > 0
  · rw [if_pos hpos] at hty
    refine ⟨fun _ => ?_, fun habs => ?_⟩
    · rw [hamt]
      exact (convertToUSD_sign hr a _).1 hpos
    · rw [hty] at habs
      exact absurd habs (by decide)
  · have hneg : a < 0 := lt_of_le_of_ne (not_lt.mp hpos) ha0
    rw [if_neg hpos] at hty
    refine ⟨fun habs => ?_, fun _ => ?_⟩
    · rw [hty] at habs
      exact absurd habs (by decide)
    · rw [hamt]
      exact (convertToUSD_sign hr a _).2 hneg

/-- C3 witness. -/
theorem claim_C3_sign_witness : (0 : ℚ) < sampleGenericTx.amount :=
  (claim_C3_sign_invariant_generic "2025-06-15" (fun _ => none) "Imported" []
    ⟨0, 1, 2, 3⟩ sampleGenericRow sampleGenericTx (by simp) (by decide)).1 rfl

/-- C7 counterexample: for a row in an unknown currency (`XYZ`, no rate
entry) the original fields are present but the stored amount is the
unconverted original, so no rate-table entry `r` with
`amount = originalAmount / r` exists. -/
theorem claim_C7_counterexample :
    (parseCSVLocally "2025-06-15" (fun _ => none)
      "Date,Description,Amount,Currency\n2025-01-02,item,5,XYZ" "f.csv" []
      []).map (fun t => (t.originalCurrency, t.originalAmount, t.amount)) =
      [(some "XYZ", some (5 : ℚ), (5 : ℚ))] ∧
    List.lookup "XYZ" ([] : RateTable) = none ∧
    ¬ ∃ r : ℚ, List.lookup "XYZ" ([] : RateTable) = some r ∧ (5 : ℚ) = 5 / r := by
  refine ⟨by decide, rfl, ?_⟩
  rintro ⟨r, hr, -⟩
  exact absurd hr (by simp [List.lookup])

/-- The C7 per-transaction property: original fields present iff the
row currency `oc` is not USD, and the stored amount relates to the
original by the (nonzero) rate entry when present. -/
theorem c7_fields_of {rates : RateTable} {t : Transaction} {oc : String}
    {a : ℚ} (hne : oc ≠ "") (hamt : t.amount = convertToUSD a oc rates)
    (hoa : t.originalAmount = (if oc ≠ "USD" then some a else none))
    (hoc : t.originalCurrency = (if oc ≠ "USD" then some oc else none)) :
    (t.originalCurrency.isSome ↔ oc ≠ "USD") ∧
    (t.originalAmount.isSome ↔ t.originalCurrency.isSome) ∧
    (∀ c b, t.originalCurrency = some c → t.originalAmount = some b →
      t.amount = match List.lookup c rates with
                 | none => b
                 | some r => if r = 0 then b else b / r) := by
  by_cases hus : oc = "USD"
  · rw [hus] at hoa hoc
    simp only [ne_eq, not_true_eq_false, if_false] at hoa hoc
    rw [hoa, hoc]
    simp [hus]
  · simp only [ne_eq, hus, not_false_eq_true, if_true] at hoa hoc
    rw [hoa, hoc]
    simp only [Option.isSome_some, ne_eq, hus, not_false_eq_true, iff_true,
      Option.some.injEq]
    refine ⟨trivial, trivial, fun c b hc hb => ?_⟩
    subst hc
    subst hb
    rw [hamt]
    exact convertToUSD_of_ne hus hne a rates

/-- C7 (amended): for every transaction produced by any of the three
extractors, `originalAmount`/`originalCurrency` are present iff the
row original currency differs from USD, and whenever present the
stored amount is `originalAmount / r` for the nonzero rate-table entry
`r` of `originalCurrency`, degrading to the unconverted
`originalAmount` when the entry is missing or zero. -/
theorem claim_C7_original_amount_invariant :
    ∀ (today : String) (native : String → Option String) (bank : String)
      (teamMembers : List TeamMember) (rates : RateTable)
      (ir : RelayIdx) (iv : RevolutIdx) (ig : GenericIdx)
      (values : List String) (t : Transaction),
    (processRelayRow today native bank teamMembers rates ir values = some t →
      ((t.originalCurrency.isSome ↔ jsOr (jsGet values ir.currency) "USD" ≠ "USD") ∧
       (t.originalAmount.isSome ↔ t.originalCurrency.isSome) ∧
       ∀ c b, t.originalCurrency = some c → t.originalAmount = some b →
         t.amount = match List.lookup c rates with
                    | none => b
                    | some r => if r = 0 then b else b / r)) ∧
    (processRevolutRow today native bank teamMembers rates iv values = some t →
      ((t.originalCurrency.isSome ↔ jsOr (jsGet values iv.currency) "USD" ≠ "USD") ∧
       (t.originalAmount.isSome ↔ t.originalCurrency.isSome) ∧
       ∀ c b, t.originalCurrency = some c → t.originalAmount = some b →
         t.amount = match List.lookup c rates with
                    | none => b
                    | some r => if r = 0 then b else b / r)) ∧
    (processGenericRow today native bank rates ig values = some t →
      ((t.originalCurrency.isSome ↔ jsOr (jsGet values ig.currency) "USD" ≠ "USD") ∧
       (t.originalAmount.isSome ↔ t.originalCurrency.isSome) ∧
       ∀ c b, t.originalCurrency = some c → t.originalAmount = some b →
         t.amount = match List.lookup c rates with
                    | none => b
                    | some r => if r = 0 then b else b / r)) := by
  intro today native bank teamMembers rates ir iv ig values t
  refine ⟨fun h => ?_, fun h => ?_, fun h => ?_⟩
  · obtain ⟨a, -, -, hamt, hoa, hoc⟩ :=
      processRelayRow_some_fields today native bank teamMembers rates ir values t h
    exact c7_fields_of (jsOr_USD_ne_empty _) hamt hoa hoc
  · obtain ⟨a, -, -, hamt, hoa, hoc⟩ :=
      processRevolutRow_some_fields today native bank teamMembers rates iv values t h
    exact c7_fields_of (jsOr_USD_ne_empty _) hamt hoa hoc
  · obtain ⟨a, -, -, -, hamt, hoa, hoc⟩ :=
      processGenericRow_some_fields today native bank rates ig values t h
    exact c7_fields_of (jsOr_USD_ne_empty _) hamt hoa hoc

/-- C7 witness: a Revolut row in an unknown currency `XYZ`. -/
theorem claim_C7_witness :
    sampleRevolutTx.originalCurrency.isSome ∧
    sampleRevolutTx.amount = (-3 : ℚ) :=
  ⟨((claim_C7_original_amount_invariant "T" (fun _ => none) "Revolut" [] []
      sampleRelayIdx sampleRevolutIdx ⟨0, 1, 2, 3⟩ sampleRevolutRow
      sampleRevolutTx).2.1 (by decide)).1.mpr (by decide),
   by
    have h := ((claim_C7_original_amount_invariant "T" (fun _ => none) "Revolut"
      [] [] sampleRelayIdx sampleRevolutIdx ⟨0, 1, 2, 3⟩ sampleRevolutRow
      sampleRevolutTx).2.1 (by decide)).2.2 "XYZ" (-3) (by decide) (by decide)
    simpa using h⟩

/-- C8: `parseDate` implements exactly the ordered fallback
chain: verbatim `YYYY-MM-DD` (after dropping a trailing time part),
then the magnitude-disambiguated triplet rules, then native date
parsing, then today; empty input goes straight to today. -/
theorem claim_C8_date_fallback_chain :
    ∀ (today : String) (native : String → Option String) (dateStr : String),
    parseDate today native dateStr = parseDateSpec today native dateStr := by
  intro today native s
  unfold parseDate parseDateSpec specTryVerbatim specTryTriplet
  by_cases h0 : s = ""
  · simp [h0]
  · simp only [h0, if_false]
    by_cases h1 : isYMD (dropTimePart s)
    · simp [h1, Option.orElse]
    · simp only [h1, Bool.false_eq_true, if_false]
      rcases hsp : splitDateSeps (dropTimePart s) with
        - | ⟨p0, - | ⟨p1, - | ⟨p2, - | ⟨p3, ps⟩⟩⟩⟩
      · cases hn : native s <;> simp [Option.orElse, hn]
      · cases hn : native s <;> simp [Option.orElse, hn]
      · cases hn : native s <;> simp [Option.orElse, hn]
      · by_cases hc : jsGT (jsParseInt p2) 1000
        · simp [hc, Option.orElse]
        · simp only [hc, Bool.false_eq_true, if_false]
          by_cases hA : jsGT (jsParseInt p0) 1000
          · simp [hA, Option.orElse]
          · simp only [hA, Bool.false_eq_true, if_false]
            cases hn : native s <;> simp [Option.orElse, hn]
      · cases hn : native s <;> simp [Option.orElse, hn]

end Zoop
